import Mathlib

/-!
Shallow embedding of the E-Commerce-Data-Analysis repository
(`src/scripts/script.py`, `src/scripts/utils/config.py`,
`src/notebook/utils/handle_plot.py`) and proofs about it.

Machine integers of the source are modelled as `Int`/`Nat`; Python `None`
is `Option.none`; code that can raise is modelled with `Except String` or
`Option`; MongoDB collections are modelled as Lean lists of documents,
holding for each relevant field the value it has in the document.
-/

namespace EC

/-! ### Datetime values (`datetime.datetime` restricted to the fields the
format string `%Y-%m-%dT%H:%M:%SZ` produces) -/

structure DateTime where
  year : Nat
  month : Nat
  day : Nat
  hour : Nat
  minute : Nat
  second : Nat
deriving DecidableEq, Repr

/-- Leap-year rule used by `datetime` when validating the day of month. -/
def isLeapYear (y : Nat) : Bool :=
  y % 4 == 0 && (y % 100 != 0 || y % 400 == 0)

/-- Number of days of month `m` of year `y`, as validated by the
`datetime.datetime` constructor. -/
def daysInMonth (y m : Nat) : Nat :=
  if m == 2 then (if isLeapYear y then 29 else 28)
  else if m == 4 || m == 6 || m == 9 || m == 11 then 30
  else 31

/-- Numeric value of a decimal digit character. -/
def digVal (c : Char) : Nat := c.toNat - 48

/-- Maximal prefix of decimal digits, together with the rest of the input.
This models the greedy digit matching of the regular expressions that
`_strptime` compiles for the numeric directives. -/
def takeDigits : List Char → List Char × List Char
  | [] => ([], [])
  | c :: cs =>
    if c.isDigit then
      let (ds, r) := takeDigits cs
      (c :: ds, r)
    else ([], c :: cs)

/-- Value of a list of decimal digit characters, most significant first. -/
def digitsToNat (ds : List Char) : Nat :=
  ds.foldl (fun a c => 10 * a + digVal c) 0

/-- Consume one expected literal character (a literal of the format
string); any other input makes the whole parse fail. -/
def expectChar (c : Char) : List Char → Option (List Char)
  | [] => none
  | x :: xs => if x = c then some xs else none

/-- Parse a run of one or two digits (the `%m`, `%d`, `%H`, `%M`, `%S`
directives each match one or two digits; a longer digit run makes the
following literal fail). -/
def parse2 (l : List Char) : Option (Nat × List Char) :=
  let (ds, r) := takeDigits l
  if ds.length = 1 ∨ ds.length = 2 then some (digitsToNat ds, r) else none

/-- Python `datetime.datetime.strptime(s, "%Y-%m-%dT%H:%M:%SZ")`.
`%Y` matches exactly four digits; the other numeric directives match one
or two digits; the `datetime` constructor then validates the ranges
(year ≥ 1, 1 ≤ month ≤ 12, 1 ≤ day ≤ days of that month, hour ≤ 23,
minute ≤ 59, second ≤ 59).  A failed match or range check raises
(ValueError), modelled as `none`. -/
def strptime (s : String) : Option DateTime :=
  match takeDigits s.data with
  | (ys, r1) =>
    if ys.length = 4 ∧ 1 ≤ digitsToNat ys then
      match expectChar '-' r1 with
      | none => none
      | some r2 =>
        match parse2 r2 with
        | none => none
        | some (m, r3) =>
          if 1 ≤ m ∧ m ≤ 12 then
            match expectChar '-' r3 with
            | none => none
            | some r4 =>
              match parse2 r4 with
              | none => none
              | some (d, r5) =>
                if 1 ≤ d ∧ d ≤ daysInMonth (digitsToNat ys) m then
                  match expectChar 'T' r5 with
                  | none => none
                  | some r6 =>
                    match parse2 r6 with
                    | none => none
                    | some (hh, r7) =>
                      if hh ≤ 23 then
                        match expectChar ':' r7 with
                        | none => none
                        | some r8 =>
                          match parse2 r8 with
                          | none => none
                          | some (mi, r9) =>
                            if mi ≤ 59 then
                              match expectChar ':' r9 with
                              | none => none
                              | some r10 =>
                                match parse2 r10 with
                                | none => none
                                | some (ss, r11) =>
                                  if ss ≤ 59 then
                                    match expectChar 'Z' r11 with
                                    | none => none
                                    | some r12 =>
                                      if r12 = [] then
                                        some ⟨digitsToNat ys, m, d, hh, mi, ss⟩
                                      else none
                                  else none
                            else none
                      else none
                else none
          else none
    else none

/-- Decimal digit character for a value below ten. -/
def digChar (k : Nat) : Char :=
  match k with
  | 0 => '0' | 1 => '1' | 2 => '2' | 3 => '3' | 4 => '4'
  | 5 => '5' | 6 => '6' | 7 => '7' | 8 => '8' | _ => '9'

/-- Two-digit zero-padded decimal rendering. -/
def pad2 (n : Nat) : List Char := [digChar (n / 10 % 10), digChar (n % 10)]

/-- Four-digit zero-padded decimal rendering. -/
def pad4 (n : Nat) : List Char :=
  [digChar (n / 1000 % 10), digChar (n / 100 % 10),
   digChar (n / 10 % 10), digChar (n % 10)]

/-- Rendering of a datetime back through the format
`%Y-%m-%dT%H:%M:%SZ` (zero padded, as `strftime` would print it); used to
state that parsing preserves the instant the string denotes. -/
def strftimeZ (d : DateTime) : String :=
  String.mk (pad4 d.year ++ '-' :: pad2 d.month ++ '-' :: pad2 d.day
    ++ 'T' :: pad2 d.hour ++ ':' :: pad2 d.minute ++ ':' :: pad2 d.second ++ ['Z'])

/-- Field ranges accepted by the `datetime` constructor (year capped at
9999, the largest value `%Y` can match). -/
def ValidDT (d : DateTime) : Prop :=
  1 ≤ d.year ∧ d.year ≤ 9999 ∧ 1 ≤ d.month ∧ d.month ≤ 12 ∧
  1 ≤ d.day ∧ d.day ≤ daysInMonth d.year d.month ∧
  d.hour ≤ 23 ∧ d.minute ≤ 59 ∧ d.second ≤ 59

instance (d : DateTime) : Decidable (ValidDT d) := by
  unfold ValidDT; infer_instance

/-! ### Configuration (`src/scripts/utils/config.py`) -/

/-- `BASE_DIR = '../'` -/
def BASE_DIR : String := "../"

/-- `PLOTS = os.path.join(BASE_DIR, 'screenshots/')` -/
def PLOTS : String := BASE_DIR ++ "screenshots/"

/-- `format = 'webp'` (the configured image format/extension). -/
def imageFormat : String := "webp"

/-- `INTERACTIVE = False` -/
def INTERACTIVE : Bool := false

/-! ### Plot helper (`src/notebook/utils/handle_plot.py`) -/

/-- The per-character translation table built by
`str.maketrans({',': '_', '!': '_', '?': '_', ' ': '_', ':': '_'})`:
each of the five listed characters maps to an underscore, every other
character is unchanged. -/
def translate_char (c : Char) : Char :=
  if c = ',' ∨ c = '!' ∨ c = '?' ∨ c = ' ' ∨ c = ':' then '_' else c

/-- `title_to_filename(title, save_dir)`: the save directory, then the
translated title, then a dot and the configured format. -/
def title_to_filename (title : String) (save_dir : String := PLOTS) : String :=
  save_dir ++ String.mk (title.data.map translate_char) ++ "." ++ imageFormat

/-- Observable actions `show_plot` can perform, in order. -/
inductive PlotEffect where
  | printMessage (s : String)
  | showFigure
  | writeImage (filename : String)
  | loadImage (filename : String)
  | displayImage
deriving DecidableEq, Repr

/-- A plotly figure, reduced to the only field `show_plot` reads:
`fig.layout.title.text`. -/
structure Figure where
  title : String

/-- `show_plot(fig, save_only, display_only, save_dir, interactive)`,
returning the list of effects it performs and its return value
(`None` in Lean is `none`; in the save-only branch the filename is
returned). -/
def show_plot (fig : Option Figure) (save_only : Bool := false)
    (display_only : Bool := false) (save_dir : String := PLOTS)
    (interactive : Bool := INTERACTIVE) : List PlotEffect × Option String :=
  match fig with
  | none => ([.printMessage "Pass in a plotly figure as argument"], none)
  | some f =>
    if interactive then
      ([.showFigure], none)
    else if save_only then
      let filename := title_to_filename f.title save_dir
      ([.writeImage filename], some filename)
    else if display_only then
      let filename := title_to_filename f.title save_dir
      ([.loadImage filename, .displayImage], none)
    else
      let filename := title_to_filename f.title save_dir
      ([.writeImage filename, .loadImage filename, .displayImage], none)

/-! ### Documents of the four collections (`src/scripts/script.py`),
restricted to the fields the verified code reads or writes.  A field
that can be absent from a document (or hold Python `None`) is an
`Option`. -/

structure OrderDoc where
  order_id : Option Int
  customer_id : Int
  order_date : DateTime
  status : String
deriving DecidableEq, Repr

structure OrderItemDoc where
  order_item_id : Option Int
  order_id : Option Int
  product_id : Int
  quantity : Int
  price : Int
deriving DecidableEq, Repr

structure ProductDoc where
  product_id : Int
  name : String
  category : String
  price : Int
deriving DecidableEq, Repr

/-- The committed state of the three collections `create_order` and the
revenue pipeline touch. -/
structure DB where
  orders : List OrderDoc
  order_items : List OrderItemDoc
  products : List ProductDoc
deriving DecidableEq, Repr

/-! ### ID generator (`generate_id_from_field`, script.py lines 1208-1245)

The aggregation `{"$group": {"_id": None, "max_f": {"$max": "$f"}}}` is
modelled over the list of the field values of the collection's
documents (`none` for a document where the field is absent or null):
on an empty collection `$group` emits no document at all; otherwise it
emits one document whose max is computed over the present values only
(`$max` ignores missing and null values), and is null when no document
has a value. -/

/-- MongoDB `$max` over the field values of a collection: the maximum of
the present values, or `none` when no document has one. -/
def maxSome : List (Option Int) → Option Int
  | [] => none
  | none :: t => maxSome t
  | some a :: t =>
    match maxSome t with
    | none => some a
    | some b => some (max a b)

/-- Result of `collection.aggregate(pipeline)` followed by
`next(result, None)`: `none` for an empty collection, otherwise the
single group document, reduced to its max field. -/
def aggregateMax (vals : List (Option Int)) : Option (Option Int) :=
  match vals with
  | [] => none
  | _ => some (maxSome vals)

/-- `generate_id_from_field(collection, field)` with `vals` the field's
values across the collection's documents.  `if max_id:` is true whenever
the aggregation returned a document (a non-empty dict is truthy even if
the max inside it is `None`); `max_id.get(list(max_id)[1]) + 1` then
raises TypeError when the max is `None`. -/
def generate_id_from_field (vals : List (Option Int)) : Except String (Option Int) :=
  match aggregateMax vals with
  | none => .ok none
  | some none => .error "TypeError: unsupported operand type(s) for +: NoneType and int"
  | some (some m) => .ok (some (m + 1))

/-! ### Order creator (`create_order`, script.py lines 1251-1317)

The writes go through `session`, so until `commit_transaction` they are
buffered by the transaction and invisible to operations run outside the
session; `generate_id_from_field` calls `collection.aggregate` WITHOUT
the session, so each call reads the committed collection state.
`abort_transaction` discards the buffered writes.  Write failures (the
induced failure of the spec, e.g. a duplicate key) are modelled by an
oracle `failAt` on the index of the write inside the attempt (0 = the
order insert, k = the k-th order-item insert); an exception anywhere in
the `try` block aborts the transaction. -/

/-- The loop body of `create_order`: mint an id from the COMMITTED
`order_items` collection, build the order-item document, insert it
(write index `k`), continue with the rest. -/
def insert_order_items (db : DB) (failAt : Nat → Bool) (order_id : Option Int) :
    List (Int × Int × Int) → Nat → Except String (List OrderItemDoc)
  | [], _ => .ok []
  | (product_id, quantity, price) :: rest, k =>
    match generate_id_from_field (db.order_items.map (·.order_item_id)) with
    | .error e => .error e
    | .ok oiid =>
      if failAt k then .error "WriteError: order_items insert failed"
      else
        match insert_order_items db failAt order_id rest (k + 1) with
        | .error e => .error e
        | .ok items =>
          .ok ({ order_item_id := oiid, order_id := order_id,
                 product_id := product_id, quantity := quantity,
                 price := price } :: items)

/-- The body of the `try` block of `create_order`: the session's buffered
writes (the one order document and the order-item documents), or the
first error raised. -/
def create_order_attempt (db : DB) (failAt : Nat → Bool) (customer_id : Int)
    (product_orders : List (Int × Int × Int)) :
    Except String (OrderDoc × List OrderItemDoc) :=
  match generate_id_from_field (db.orders.map (·.order_id)) with
  | .error e => .error e
  | .ok order_id =>
    match strptime "2024-12-22T10:00:00Z" with
    | none => .error "ValueError: time data does not match format"
    | some od =>
      if failAt 0 then .error "WriteError: orders insert failed"
      else
        match insert_order_items db failAt order_id product_orders 1 with
        | .error e => .error e
        | .ok items =>
          .ok ({ order_id := order_id, customer_id := customer_id,
                 order_date := od, status := "Processing" }, items)

/-- Outcome of a `create_order` call: the committed database afterwards,
whether the transaction committed, and the message printed. -/
structure CreateOrderResult where
  db : DB
  ok : Bool
  message : String
deriving DecidableEq, Repr

/-- Python rendering of the order id inside the success message. -/
def showOptId : Option Int → String
  | none => "None"
  | some n => toString n

/-- `create_order(customer_id, product_orders)`: on success the commit
makes the buffered writes part of the committed collections; on any
exception the transaction is aborted and the committed state is
untouched.  Each element of `product_orders` is the
(product_id, quantity, price) triple of one line item. -/
def create_order (db : DB) (failAt : Nat → Bool) (customer_id : Int)
    (product_orders : List (Int × Int × Int)) : CreateOrderResult :=
  match create_order_attempt db failAt customer_id product_orders with
  | .ok (order, items) =>
    { db :=
        { orders := db.orders ++ [order],
          order_items := db.order_items ++ items,
          products := db.products },
      ok := true,
      message := "Order " ++ showOptId order.order_id ++ " created successfully." }
  | .error e =>
    { db := db, ok := false, message := "Oops, an error occurred: " ++ e }

/-! ### Revenue-by-category aggregation pipeline (script.py lines 479-531)

The pipeline runs on `order_items`: `$lookup` of `products` on
`product_id`, `$unwind` of the joined array, `$addFields` of
`revenue = quantity * product_info.price`, `$group` by
`product_info.category` summing `revenue`, `$project` renaming `_id` to
`product_category`, and `$sort` by `total_revenue` descending.  `$group`
emits one document per distinct key in an unspecified order (modelled
as first-occurrence order); `$sort` totally orders by the sort key and
is modelled by an insertion sort. -/

/-- An order-item document after `$lookup`: the document plus the array
of products whose `product_id` matches its own. -/
structure LookedUpDoc where
  oi : OrderItemDoc
  product_info : List ProductDoc

def stage_lookup (products : List ProductDoc) (ois : List OrderItemDoc) :
    List LookedUpDoc :=
  ois.map fun oi => ⟨oi, products.filter fun p => p.product_id == oi.product_id⟩

/-- A document after `$unwind`: one copy per element of `product_info`
(a document with an empty `product_info` array is dropped). -/
structure UnwoundDoc where
  oi : OrderItemDoc
  product_info : ProductDoc

def stage_unwind (l : List LookedUpDoc) : List UnwoundDoc :=
  l.flatMap fun d => d.product_info.map fun p => ⟨d.oi, p⟩

/-- A document after `$addFields`: `revenue = quantity * product price`. -/
structure RevenueDoc where
  oi : OrderItemDoc
  product_info : ProductDoc
  revenue : Int

def stage_addFields (l : List UnwoundDoc) : List RevenueDoc :=
  l.map fun d => ⟨d.oi, d.product_info, d.oi.quantity * d.product_info.price⟩

/-- MongoDB `$group` with `_id` the key and `$sum` of the values: one
output pair per distinct key, carrying the sum of the values of all
input pairs with that key (output in first-occurrence order of the
keys; MongoDB leaves the group order unspecified and the final `$sort`
is the only ordering the verified properties rely on). -/
def groupSum : List (String × Int) → List (String × Int)
  | [] => []
  | (c, r) :: rest =>
    (c, r + ((rest.filter fun x => x.1 == c).map (·.2)).sum)
      :: groupSum (rest.filter fun x => !(x.1 == c))
termination_by l => l.length
decreasing_by simp_wf; exact Nat.lt_succ_of_le (List.length_filter_le _ _)

def stage_group (l : List RevenueDoc) : List (String × Int) :=
  groupSum (l.map fun d => (d.product_info.category, d.revenue))

/-- A result row after `$project`: `product_category`, `total_revenue`. -/
structure RevenueRow where
  product_category : String
  total_revenue : Int
deriving DecidableEq, Repr

def stage_project (l : List (String × Int)) : List RevenueRow :=
  l.map fun x => ⟨x.1, x.2⟩

/-- Sort key order of the final `$sort` stage: descending `total_revenue`. -/
def rowGE (a b : RevenueRow) : Prop := b.total_revenue ≤ a.total_revenue

instance : DecidableRel rowGE := fun a b => by unfold rowGE; infer_instance

instance : IsTotal RevenueRow rowGE :=
  ⟨fun a b => le_total b.total_revenue a.total_revenue⟩

instance : IsTrans RevenueRow rowGE :=
  ⟨fun _ _ _ h1 h2 => le_trans h2 h1⟩

def stage_sort (l : List RevenueRow) : List RevenueRow :=
  l.insertionSort rowGE

/-- The whole pipeline, as executed by
`order_items.aggregate(pipeline)`. -/
def revenue_by_category (ois : List OrderItemDoc) (products : List ProductDoc) :
    List RevenueRow :=
  stage_sort (stage_project (stage_group (stage_addFields
    (stage_unwind (stage_lookup products ois)))))

/-- Reference computation, following the spec's words (refinement
reference, deliberately NOT translated from the pipeline): the revenue
of a category is the sum of quantity × product price over the order
items whose product belongs to that category. -/
def spec_category_revenue (ois : List OrderItemDoc) (products : List ProductDoc)
    (c : String) : Int :=
  (ois.map fun oi =>
    match products.find? (fun p => p.product_id == oi.product_id) with
    | some p => if p.category = c then oi.quantity * p.price else 0
    | none => 0).sum

/-! ### Python values for the fixture-loading helpers
(`load_json`, `convert_date`, script.py lines 370-435)

A JSON-loaded document is a Python object: `vdict` is a dict as an
association list in insertion order (JSON object keys are unique after
`json.load`), and the two conversion helpers can turn values into bson
`ObjectId`s (`vobjid`, whose argument is the 24-char hex string, or
`none` for a freshly generated id) and `datetime`s (`vdatetime`). -/

inductive PyVal where
  | vnull
  | vbool (b : Bool)
  | vint (n : Int)
  | vstr (s : String)
  | vlist (xs : List PyVal)
  | vdict (fields : List (String × PyVal))
  | vobjid (hex : Option String)
  | vdatetime (d : DateTime)

/-- Whether `pat` occurs as a contiguous substring. -/
def isSubstrList (pat : List Char) : List Char → Bool
  | [] => pat.isPrefixOf []
  | c :: cs => pat.isPrefixOf (c :: cs) || isSubstrList pat cs

/-- Python `key in v`: key membership for a dict, substring test for a
string, element membership for a list; TypeError for values that are
not containers (int, None, bool, ObjectId, datetime). -/
def pyContains (v : PyVal) (key : String) : Except String Bool :=
  match v with
  | .vdict f => .ok (f.any fun kv => kv.1 == key)
  | .vstr s => .ok (isSubstrList key.data s.data)
  | .vlist xs => .ok (xs.any fun x => match x with | .vstr s => s == key | _ => false)
  | _ => .error "TypeError: argument of type is not iterable"

/-- Python `v[key]` for a string key. -/
def pyGetItem (v : PyVal) (key : String) : Except String PyVal :=
  match v with
  | .vdict f =>
    match f.find? (fun kv => kv.1 == key) with
    | some kv => .ok kv.2
    | none => .error ("KeyError: " ++ key)
  | .vstr _ => .error "TypeError: string indices must be integers"
  | .vlist _ => .error "TypeError: list indices must be integers"
  | _ => .error "TypeError: object is not subscriptable"

/-- Replace the value of `k` (keeping its position) or append the
binding, as Python dict assignment does. -/
def setKey : List (String × PyVal) → String → PyVal → List (String × PyVal)
  | [], k, v => [(k, v)]
  | (k0, v0) :: rest, k, v =>
    if k0 == k then (k, v) :: rest else (k0, v0) :: setKey rest k v

/-- Python `v[key] = val`. -/
def pySetItem (v : PyVal) (key : String) (val : PyVal) : Except String PyVal :=
  match v with
  | .vdict f => .ok (.vdict (setKey f key val))
  | _ => .error "TypeError: object does not support item assignment"

def isHexChar (c : Char) : Bool :=
  c.isDigit || ('a' ≤ c && c ≤ 'f') || ('A' ≤ c && c ≤ 'F')

/-- The `bson.ObjectId` constructor: a 24-character hex string gives the
ObjectId with those bytes, `None` generates a fresh id, another
ObjectId is copied, anything else raises. -/
def mkObjectId (v : PyVal) : Except String PyVal :=
  match v with
  | .vstr s =>
    if s.length == 24 && s.data.all isHexChar then .ok (.vobjid (some s))
    else .error "InvalidId: not a valid ObjectId"
  | .vnull => .ok (.vobjid none)
  | .vobjid h => .ok (.vobjid h)
  | _ => .error "TypeError: id must be an instance of bytes str or ObjectId"

/-- The loop body of `load_json`: `if "$oid" in document["_id"]:
document["_id"] = ObjectId(document["_id"]["$oid"])`. -/
def load_json_doc (doc : PyVal) : Except String PyVal :=
  match pyGetItem doc "_id" with
  | .error e => .error e
  | .ok idv =>
    match pyContains idv "$oid" with
    | .error e => .error e
    | .ok b =>
      if b then
        match pyGetItem idv "$oid" with
        | .error e => .error e
        | .ok ov =>
          match mkObjectId ov with
          | .error e => .error e
          | .ok oid => pySetItem doc "_id" oid
      else .ok doc

/-- `load_json`, applied to the already-parsed JSON array (file reading
and `json.load` are outside the embedding): the in-place loop over the
documents. -/
def load_json : List PyVal → Except String (List PyVal)
  | [] => .ok []
  | d :: ds =>
    match load_json_doc d with
    | .error e => .error e
    | .ok d' =>
      match load_json ds with
      | .error e => .error e
      | .ok ds' => .ok (d' :: ds')

/-- One `if field in document: document[field] =
dt.datetime.strptime(document[field], "%Y-%m-%dT%H:%M:%SZ")` block of
`convert_date`. -/
def convert_date_field (doc : PyVal) (field : String) : Except String PyVal :=
  match pyContains doc field with
  | .error e => .error e
  | .ok b =>
    if b then
      match pyGetItem doc field with
      | .error e => .error e
      | .ok v =>
        match v with
        | .vstr s =>
          match strptime s with
          | some d => pySetItem doc field (.vdatetime d)
          | none => .error "ValueError: time data does not match format"
        | _ => .error "TypeError: strptime argument must be str"
    else .ok doc

/-- The loop body of `convert_date`: the `order_date` block, then the
`delivery_date` block. -/
def convert_date_doc (doc : PyVal) : Except String PyVal :=
  match convert_date_field doc "order_date" with
  | .error e => .error e
  | .ok d1 => convert_date_field d1 "delivery_date"

/-- `convert_date` over the list of documents. -/
def convert_date : List PyVal → Except String (List PyVal)
  | [] => .ok []
  | d :: ds =>
    match convert_date_doc d with
    | .error e => .error e
    | .ok d' =>
      match convert_date ds with
      | .error e => .error e
      | .ok ds' => .ok (d' :: ds')

/-- Lookup of a dict field used only in statements (not by the code):
the value bound to `key` when `v` is a dict that has one. -/
def pyLookup (v : PyVal) (key : String) : Option PyVal :=
  match v with
  | .vdict f => (f.find? (fun kv => kv.1 == key)).map (·.2)
  | _ => none

/-- Sum of the values of the pairs with key `c` (the contribution of one
`$group` key), used to state the `groupSum` lemmas. -/
def sumForKey (l : List (String × Int)) (c : String) : Int :=
  ((l.filter fun x => x.1 == c).map (·.2)).sum

/-- What the conversion of one document guarantees: every date field the
document held as a string is afterwards the datetime `strptime` gives
for that string. -/
def dateConvRel (doc doc' : PyVal) : Prop :=
  ∀ field ∈ ["order_date", "delivery_date"], ∀ s,
    pyLookup doc field = some (.vstr s) →
    ∃ d, strptime s = some d ∧ pyLookup doc' field = some (.vdatetime d)

/-- A fixture document whose `_id` is a JSON object and whose `$oid`
binding, if any, is a valid 24-character hex string (the shape the
amended load claim is restricted to). -/
def goodIdDoc (doc : PyVal) : Bool :=
  match pyLookup doc "_id" with
  | some (.vdict idf) =>
    idf.all fun kv =>
      !(kv.1 == "$oid") ||
        (match kv.2 with
         | .vstr h => h.length == 24 && h.data.all isHexChar
         | _ => false)
  | _ => false

/-- What loading one document guarantees: a wrapped `_id` is replaced in
place by the ObjectId of its `$oid` hex string, an object `_id` without
a `$oid` key leaves the document unchanged. -/
def loadRel (doc doc' : PyVal) : Prop :=
  (∀ fields idf h24, doc = .vdict fields →
    pyLookup doc "_id" = some (.vdict idf) →
    pyLookup (.vdict idf) "$oid" = some (.vstr h24) →
    doc' = .vdict (setKey fields "_id" (.vobjid (some h24)))) ∧
  (∀ idf, pyLookup doc "_id" = some (.vdict idf) →
    idf.find? (fun kv => kv.1 == "$oid") = none → doc' = doc)

/-- A concrete committed database state: one order (id 1) and one order
item (id 1) already exist. -/
def dbOneItem : DB :=
  { orders := [{ order_id := some 1, customer_id := 1,
                 order_date := ⟨2024, 1, 1, 0, 0, 0⟩, status := "Shipped" }],
    order_items := [{ order_item_id := some 1, order_id := some 1,
                      product_id := 1, quantity := 1, price := 10 }],
    products := [] }

/-! ## Theorems -/

/-- If `maxSome` finds nothing, no document has a value. -/
theorem maxSome_eq_none (vals : List (Option Int)) (h : maxSome vals = none) :
    vals.filterMap id = [] := by
  induction vals with
  | nil => rfl
  | cons v t ih =>
    cases v with
    | none =>
      rw [maxSome] at h
      simpa using ih h
    | some a =>
      rw [maxSome] at h
      cases hm : maxSome t <;> simp [hm] at h

/-- The value `maxSome` finds is a present value and an upper bound of
all present values. -/
theorem maxSome_eq_some (vals : List (Option Int)) (m : Int)
    (h : maxSome vals = some m) :
    m ∈ vals.filterMap id ∧ ∀ a ∈ vals.filterMap id, a ≤ m := by
  induction vals generalizing m with
  | nil => simp [maxSome] at h
  | cons v t ih =>
    cases v with
    | none =>
      rw [maxSome] at h
      simpa using ih m h
    | some a =>
      rw [maxSome] at h
      cases hm : maxSome t with
      | none =>
        rw [hm] at h
        have hme : m = a := by simpa using h.symm
        subst hme
        have ht := maxSome_eq_none t hm
        simp [ht]
      | some b =>
        rw [hm] at h
        have hme : m = max a b := by simpa using h.symm
        subst hme
        obtain ⟨hb1, hb2⟩ := ih b hm
        constructor
        · rcases le_total a b with hab | hba
          · rw [max_eq_right hab]
            simp only [List.filterMap_cons, id]
            exact List.mem_cons_of_mem _ hb1
          · rw [max_eq_left hba]
            simp [List.filterMap_cons]
        · intro x hx
          simp only [List.filterMap_cons, id, List.mem_cons] at hx
          rcases hx with rfl | hx
          · exact le_max_left _ _
          · exact le_trans (hb2 x hx) (le_max_right _ _)

/-- When every document lacks the field, `$max` yields null. -/
theorem maxSome_all_none (vals : List (Option Int)) (h : ∀ v ∈ vals, v = none) :
    maxSome vals = none := by
  induction vals with
  | nil => rfl
  | cons v t ih =>
    have hv : v = none := h v (List.mem_cons_self v t)
    subst hv
    rw [maxSome]
    exact ih fun x hx => h x (List.mem_cons_of_mem _ hx)

/-- C1: for a collection whose queried field has present numeric values
with maximum `m`, `generate_id_from_field` returns `m + 1`, and for the
empty collection it returns an absent result (`none`).  `vals` is the
list of the field's values across the collection's documents. -/
theorem generate_id_from_field_spec :
    generate_id_from_field [] = Except.ok none ∧
    ∀ (vals : List (Option Int)) (m : Int),
      (vals.filterMap id).maximum = (m : WithBot Int) →
      generate_id_from_field vals = Except.ok (some (m + 1)) := by
  constructor
  · rfl
  · intro vals m h
    rw [List.maximum_eq_coe_iff] at h
    obtain ⟨hmem, hub⟩ := h
    cases hv : maxSome vals with
    | none =>
      rw [maxSome_eq_none vals hv] at hmem
      exact absurd hmem (List.not_mem_nil m)
    | some m' =>
      obtain ⟨hm1, hm2⟩ := maxSome_eq_some vals m' hv
      have hmm : m' = m := le_antisymm (hub m' hm1) (hm2 m hmem)
      subst hmm
      cases vals with
      | nil => simp at hmem
      | cons v t => simp [generate_id_from_field, aggregateMax, hv]

/-- Witness for C1 at concrete inputs. -/
theorem generate_id_from_field_spec_witness :
    generate_id_from_field [some 3, some 7, some 5] = Except.ok (some 8) :=
  generate_id_from_field_spec.2 [some 3, some 7, some 5] 7 (by decide)

/-- C9: on a non-empty collection in which the field is absent from (or
null in) every document, `generate_id_from_field` raises TypeError
(`None + 1`) instead of returning an absent result. -/
theorem generate_id_from_field_all_none (vals : List (Option Int))
    (h1 : vals ≠ []) (h2 : ∀ v ∈ vals, v = none) :
    generate_id_from_field vals =
      Except.error "TypeError: unsupported operand type(s) for +: NoneType and int" := by
  cases vals with
  | nil => exact absurd rfl h1
  | cons v t =>
    have hm := maxSome_all_none (v :: t) h2
    simp [generate_id_from_field, aggregateMax, hm]

/-- Witness for C9 at a concrete input. -/
theorem generate_id_from_field_all_none_witness :
    generate_id_from_field [none, none] =
      Except.error "TypeError: unsupported operand type(s) for +: NoneType and int" :=
  generate_id_from_field_all_none [none, none] (by decide) (by decide)

/-- C4 counterexample: the title of the spec's example actually yields
double underscores (one per replaced character), not the claimed
`Revenue_Q1_2024_.webp` (shown here with an empty save directory, which
is the most charitable reading of the example). -/
theorem title_to_filename_example_ne :
    title_to_filename "Revenue: Q1, 2024!" "" = "Revenue__Q1__2024_.webp" ∧
    title_to_filename "Revenue: Q1, 2024!" "" ≠ "Revenue_Q1_2024_.webp" := by
  constructor
  · rfl
  · decide

/-- C4 amended: the filename is the save directory, then the title with
EACH occurrence of comma, exclamation mark, question mark, space and
colon replaced by its own underscore (so adjacent such characters give
adjacent underscores), then a dot and the configured extension; the
spec's example title yields `../screenshots/Revenue__Q1__2024_.webp`. -/
theorem title_to_filename_spec :
    (∀ (title save_dir : String), ∃ core : List Char,
      title_to_filename title save_dir =
        save_dir ++ String.mk core ++ "." ++ imageFormat ∧
      List.Forall₂ (fun c c' => c' =
        if c = ',' ∨ c = '!' ∨ c = '?' ∨ c = ' ' ∨ c = ':' then '_' else c)
        title.data core) ∧
    title_to_filename "Revenue: Q1, 2024!" PLOTS =
      "../screenshots/Revenue__Q1__2024_.webp" := by
  constructor
  · intro title save_dir
    refine ⟨title.data.map translate_char, rfl, ?_⟩
    generalize title.data = l
    induction l with
    | nil => constructor
    | cons c t ih => exact List.Forall₂.cons rfl ih
  · rfl

/-- C10: with the interactive flag true, `show_plot` only renders the
figure (`fig.show()`), returns `None`, derives no filename and writes
no image file, whatever `save_only` and `display_only` are. -/
theorem show_plot_interactive_no_save :
    ∀ (f : Figure) (save_only display_only : Bool) (save_dir : String),
      show_plot (some f) save_only display_only save_dir true =
        ([PlotEffect.showFigure], none) ∧
      ∀ fn, PlotEffect.writeImage fn ∉
        (show_plot (some f) save_only display_only save_dir true).1 := by
  intro f so dp sd
  refine ⟨rfl, ?_⟩
  intro fn h
  simp [show_plot] at h

/-- C8: `create_order` never touches the products collection: the stock
update is commented out, so the committed products are unchanged both
when the transaction commits and when it aborts. -/
theorem create_order_products_unchanged :
    ∀ (db : DB) (failAt : Nat → Bool) (customer_id : Int)
      (product_orders : List (Int × Int × Int)),
      (create_order db failAt customer_id product_orders).db.products =
        db.products := by
  intro db failAt cid pos
  unfold create_order
  cases h : create_order_attempt db failAt cid pos with
  | ok v => obtain ⟨o, i⟩ := v; rfl
  | error e => rfl

/-- The order items built inside a successful attempt: one per line
item, each carrying the order id minted for the new order. -/
theorem insert_order_items_ok (db : DB) (failAt : Nat → Bool)
    (oid : Option Int) :
    ∀ (pos : List (Int × Int × Int)) (k : Nat) (items : List OrderItemDoc),
      insert_order_items db failAt oid pos k = .ok items →
      items.length = pos.length ∧ ∀ it ∈ items, it.order_id = oid := by
  intro pos
  induction pos with
  | nil =>
    intro k items h
    rw [insert_order_items] at h
    cases h
    simp
  | cons p rest ih =>
    intro k items h
    obtain ⟨pid, q, pr⟩ := p
    rw [insert_order_items] at h
    split at h
    · cases h
    · split at h
      · cases h
      · split at h
        · cases h
        · rename_i oiid _ items' hr
          cases h
          obtain ⟨ihl, ihm⟩ := ih (k + 1) items' hr
          constructor
          · simp [ihl]
          · intro it hit
            rcases List.mem_cons.mp hit with rfl | hit
            · rfl
            · exact ihm it hit

/-- A successful attempt builds an order for the given customer and one
item per line item, each item linked to the minted order id. -/
theorem create_order_attempt_ok (db : DB) (failAt : Nat → Bool)
    (customer_id : Int) (product_orders : List (Int × Int × Int))
    (order : OrderDoc) (items : List OrderItemDoc)
    (h : create_order_attempt db failAt customer_id product_orders =
      .ok (order, items)) :
    items.length = product_orders.length ∧
    order.customer_id = customer_id ∧
    ∀ it ∈ items, it.order_id = order.order_id := by
  unfold create_order_attempt at h
  split at h
  · cases h
  · split at h
    · cases h
    · split at h
      · cases h
      · split at h
        · cases h
        · rename_i x1 oid hg x2 od hs hf x3 items' hi
          obtain ⟨hl, hm⟩ := insert_order_items_ok db failAt oid
            product_orders 1 items' hi
          cases h
          exact ⟨hl, rfl, hm⟩

/-- C2: a `create_order` call either commits, appending exactly one new
order document and exactly one order-item document per line item, each
order item carrying the new order's order id, or aborts, leaving the
committed collections exactly as they were and reporting the error. -/
theorem create_order_atomic (db : DB) (failAt : Nat → Bool)
    (customer_id : Int) (product_orders : List (Int × Int × Int)) :
    ((create_order db failAt customer_id product_orders).ok = true →
      ∃ (order : OrderDoc) (items : List OrderItemDoc),
        (create_order db failAt customer_id product_orders).db.orders =
          db.orders ++ [order] ∧
        (create_order db failAt customer_id product_orders).db.order_items =
          db.order_items ++ items ∧
        items.length = product_orders.length ∧
        order.customer_id = customer_id ∧
        ∀ it ∈ items, it.order_id = order.order_id) ∧
    ((create_order db failAt customer_id product_orders).ok = false →
      (create_order db failAt customer_id product_orders).db = db ∧
      ∃ e, (create_order db failAt customer_id product_orders).message =
        "Oops, an error occurred: " ++ e) := by
  unfold create_order
  cases h : create_order_attempt db failAt customer_id product_orders with
  | error e =>
    exact ⟨fun hok => by simp at hok, fun _ => ⟨rfl, e, rfl⟩⟩
  | ok v =>
    obtain ⟨order, items⟩ := v
    obtain ⟨hl, hc, hm⟩ := create_order_attempt_ok db failAt customer_id
      product_orders order items h
    exact ⟨fun _ => ⟨order, items, rfl, rfl, hl, hc, hm⟩,
      fun hok => by simp at hok⟩

/-- Witness for C2: both branches at concrete inputs (no induced
failure: the commit appends the new documents; an induced failure on
the first write: the database is untouched and the error reported). -/
theorem create_order_atomic_witness :
    (∃ (order : OrderDoc) (items : List OrderItemDoc),
      (create_order ⟨[], [], []⟩ (fun _ => false) 7 [(1, 2, 3)]).db.orders =
        ([] : List OrderDoc) ++ [order] ∧
      (create_order ⟨[], [], []⟩ (fun _ => false) 7 [(1, 2, 3)]).db.order_items =
        ([] : List OrderItemDoc) ++ items ∧
      items.length = [(1, 2, 3)].length ∧
      order.customer_id = 7 ∧
      ∀ it ∈ items, it.order_id = order.order_id) ∧
    ((create_order ⟨[], [], []⟩ (fun _ => true) 7 [(1, 2, 3)]).db =
      (⟨[], [], []⟩ : DB) ∧
    ∃ e, (create_order ⟨[], [], []⟩ (fun _ => true) 7 [(1, 2, 3)]).message =
      "Oops, an error occurred: " ++ e) :=
  ⟨(create_order_atomic ⟨[], [], []⟩ (fun _ => false) 7 [(1, 2, 3)]).1 rfl,
   (create_order_atomic ⟨[], [], []⟩ (fun _ => true) 7 [(1, 2, 3)]).2 rfl⟩

theorem sumForKey_cons (x : String × Int) (l : List (String × Int)) (c : String) :
    sumForKey (x :: l) c = (if x.1 == c then x.2 else 0) + sumForKey l c := by
  unfold sumForKey
  cases h : x.1 == c <;> simp [List.filter_cons, h]

theorem sumForKey_append (a b : List (String × Int)) (c : String) :
    sumForKey (a ++ b) c = sumForKey a c + sumForKey b c := by
  simp [sumForKey, List.filter_append]

theorem sumForKey_filter_ne (c c0 : String) (h : ¬(c = c0))
    (l : List (String × Int)) :
    sumForKey (l.filter fun x => !(x.1 == c0)) c = sumForKey l c := by
  induction l with
  | nil => rfl
  | cons x t ih =>
    cases hx : x.1 == c0 with
    | true =>
      rw [List.filter_cons_of_neg (by simp [hx]), ih, sumForKey_cons]
      have hxc : (x.1 == c) = false := by
        have := (beq_iff_eq (a := x.1) (b := c0)).mp hx
        simp [this]
        intro hc
        exact h hc.symm
      simp [hxc]
    | false =>
      rw [List.filter_cons_of_pos (by simp [hx]), sumForKey_cons, sumForKey_cons, ih]

theorem groupSum_mem : ∀ (n : Nat) (l : List (String × Int)), l.length ≤ n →
    ∀ c t, (c, t) ∈ groupSum l → c ∈ l.map Prod.fst ∧ t = sumForKey l c := by
  intro n
  induction n with
  | zero =>
    intro l hl c t hmem
    have hle : l = [] := List.length_eq_zero.mp (Nat.le_zero.mp hl)
    subst hle
    rw [groupSum] at hmem
    cases hmem
  | succ n ih =>
    intro l hl c t hmem
    cases l with
    | nil => rw [groupSum] at hmem; cases hmem
    | cons x rest =>
      obtain ⟨c0, r⟩ := x
      rw [groupSum] at hmem
      rcases List.mem_cons.mp hmem with heq | htail
      · cases heq
        constructor
        · simp
        · rw [sumForKey_cons]
          simp [sumForKey]
      · have hrest : rest.length ≤ n := by
          simpa using Nat.lt_succ_iff.mp (Nat.lt_of_lt_of_le (by simp) hl)
        have hlen : (rest.filter fun x => !(x.1 == c0)).length ≤ n :=
          le_trans (List.length_filter_le _ _) hrest
        obtain ⟨hckey, hts⟩ := ih _ hlen c t htail
        obtain ⟨y, hy, hyc⟩ := List.mem_map.mp hckey
        have hyrest := List.mem_of_mem_filter hy
        have hyp := List.of_mem_filter hy
        have hcne : ¬(c = c0) := by
          intro hc
          rw [Bool.not_eq_eq_eq_not, Bool.not_true, beq_eq_false_iff_ne] at hyp
          exact hyp (hyc.trans hc)
        constructor
        · simp only [List.map_cons]
          exact List.mem_cons_of_mem _ (List.mem_map.mpr ⟨y, hyrest, hyc⟩)
        · rw [hts, sumForKey_filter_ne c c0 hcne rest, sumForKey_cons]
          have hc0c : (c0 == c) = false := by
            rw [beq_eq_false_iff_ne]
            exact fun hcc => hcne hcc.symm
          simp [hc0c]

theorem groupSum_keys_nodup : ∀ (n : Nat) (l : List (String × Int)),
    l.length ≤ n → ((groupSum l).map Prod.fst).Nodup := by
  intro n
  induction n with
  | zero =>
    intro l hl
    have hle : l = [] := List.length_eq_zero.mp (Nat.le_zero.mp hl)
    subst hle
    rw [groupSum]
    simp
  | succ n ih =>
    intro l hl
    cases l with
    | nil => rw [groupSum]; simp
    | cons x rest =>
      obtain ⟨c0, r⟩ := x
      rw [groupSum]
      simp only [List.map_cons]
      have hrest : rest.length ≤ n := by
        simpa using Nat.lt_succ_iff.mp (Nat.lt_of_lt_of_le (by simp) hl)
      have hlen : (rest.filter fun x => !(x.1 == c0)).length ≤ n :=
        le_trans (List.length_filter_le _ _) hrest
      refine List.nodup_cons.mpr ⟨?_, ih _ hlen⟩
      intro hc0
      obtain ⟨⟨c, t⟩, hmem, hfst⟩ := List.mem_map.mp hc0
      obtain ⟨hkey, _⟩ := groupSum_mem n _ hlen c t hmem
      obtain ⟨y, hy, hyc⟩ := List.mem_map.mp hkey
      have hyp := List.of_mem_filter hy
      rw [Bool.not_eq_eq_eq_not, Bool.not_true, beq_eq_false_iff_ne] at hyp
      exact hyp (hyc.trans hfst)

theorem filter_eq_find_toList (products : List ProductDoc) (pid : Int)
    (h : (products.map (·.product_id)).Nodup) :
    products.filter (fun p => p.product_id == pid) =
      (products.find? (fun p => p.product_id == pid)).toList := by
  induction products with
  | nil => rfl
  | cons p ps ih =>
    simp only [List.map_cons, List.nodup_cons] at h
    obtain ⟨hnp, hnd⟩ := h
    cases hp : (p.product_id == pid) with
    | true =>
      have hps : ps.filter (fun q => q.product_id == pid) = [] := by
        rw [List.filter_eq_nil_iff]
        intro q hq hqb
        have hqe : q.product_id = pid := by simpa using hqb
        have hpe : p.product_id = pid := by simpa using hp
        exact hnp (List.mem_map.mpr ⟨q, hq, hqe.trans hpe.symm⟩)
      simp [List.filter_cons, List.find?_cons, hp, hps]
    | false =>
      simp only [List.filter_cons, List.find?_cons, hp, cond_false, if_false]
      exact ih hnd

theorem pipeline_rows_eq (ois : List OrderItemDoc) (products : List ProductDoc) :
    ((stage_addFields (stage_unwind (stage_lookup products ois))).map
      fun d => (d.product_info.category, d.revenue)) =
    ois.flatMap fun oi =>
      (products.filter fun p => p.product_id == oi.product_id).map
        fun p => (p.category, oi.quantity * p.price) := by
  induction ois with
  | nil => rfl
  | cons oi rest ih =>
    simp only [stage_lookup, stage_unwind, stage_addFields, List.map_cons,
      List.flatMap_cons, List.map_append, List.map_map] at ih ⊢
    rw [ih]
    rfl

theorem sumForKey_rows (ois : List OrderItemDoc) (products : List ProductDoc)
    (c : String) (h : (products.map (·.product_id)).Nodup) :
    sumForKey ((stage_addFields (stage_unwind (stage_lookup products ois))).map
      fun d => (d.product_info.category, d.revenue)) c =
    spec_category_revenue ois products c := by
  rw [pipeline_rows_eq]
  induction ois with
  | nil => rfl
  | cons oi rest ih =>
    rw [List.flatMap_cons, sumForKey_append, ih]
    simp only [spec_category_revenue, List.map_cons, List.sum_cons]
    congr 1
    rw [filter_eq_find_toList products oi.product_id h]
    cases hf : products.find? (fun p => p.product_id == oi.product_id) with
    | none => rfl
    | some p =>
      by_cases hc : p.category = c
      · simp [Option.toList, sumForKey_cons, sumForKey, hc]
      · have hcb : (p.category == c) = false := by
          rw [beq_eq_false_iff_ne]; exact hc
        simp [Option.toList, sumForKey_cons, sumForKey, hcb, hc]

/-- C5: on any fixed set of order items and products (product ids
unique, as the products collection's unique index guarantees), every
row of the revenue-by-category pipeline carries as `total_revenue`
exactly the reference sum of quantity × product price over the order
items whose product belongs to that category, each category appears at
most once, and the rows are sorted in descending order of
`total_revenue`. -/
theorem revenue_by_category_correct (ois : List OrderItemDoc)
    (products : List ProductDoc)
    (h : (products.map (·.product_id)).Nodup) :
    (∀ row ∈ revenue_by_category ois products,
      row.total_revenue = spec_category_revenue ois products row.product_category) ∧
    ((revenue_by_category ois products).map (·.product_category)).Nodup ∧
    (revenue_by_category ois products).Pairwise
      (fun a b => b.total_revenue ≤ a.total_revenue) := by
  have hperm : List.Perm (revenue_by_category ois products)
      (stage_project (stage_group (stage_addFields
        (stage_unwind (stage_lookup products ois))))) :=
    List.perm_insertionSort rowGE _
  refine ⟨?_, ?_, ?_⟩
  · intro row hrow
    have hrow' := hperm.mem_iff.mp hrow
    unfold stage_project at hrow'
    obtain ⟨⟨c, t⟩, hmem, heq⟩ := List.mem_map.mp hrow'
    cases heq
    unfold stage_group at hmem
    obtain ⟨_, hts⟩ := groupSum_mem _ _ le_rfl c t hmem
    rw [hts]
    exact sumForKey_rows ois products c h
  · rw [List.Perm.nodup_iff (hperm.map (·.product_category))]
    have hmm : (stage_project (stage_group (stage_addFields
        (stage_unwind (stage_lookup products ois))))).map (·.product_category) =
        (stage_group (stage_addFields
          (stage_unwind (stage_lookup products ois)))).map Prod.fst := by
      unfold stage_project
      rw [List.map_map]
      rfl
    rw [hmm]
    exact groupSum_keys_nodup _ _ le_rfl
  · exact List.sorted_insertionSort rowGE _

/-- Witness for C5 at a concrete database. -/
theorem revenue_by_category_correct_witness :
    (([⟨1, "A", "Electronics", 10⟩, ⟨2, "B", "Clothing", 5⟩] :
        List ProductDoc).map (·.product_id)).Nodup ∧
    ((∀ row ∈ revenue_by_category
        [⟨some 1, some 1, 1, 2, 10⟩, ⟨some 2, some 1, 2, 3, 5⟩]
        [⟨1, "A", "Electronics", 10⟩, ⟨2, "B", "Clothing", 5⟩],
      row.total_revenue = spec_category_revenue
        [⟨some 1, some 1, 1, 2, 10⟩, ⟨some 2, some 1, 2, 3, 5⟩]
        [⟨1, "A", "Electronics", 10⟩, ⟨2, "B", "Clothing", 5⟩]
        row.product_category) ∧
    ((revenue_by_category
        [⟨some 1, some 1, 1, 2, 10⟩, ⟨some 2, some 1, 2, 3, 5⟩]
        [⟨1, "A", "Electronics", 10⟩, ⟨2, "B", "Clothing", 5⟩]).map
      (·.product_category)).Nodup ∧
    (revenue_by_category
        [⟨some 1, some 1, 1, 2, 10⟩, ⟨some 2, some 1, 2, 3, 5⟩]
        [⟨1, "A", "Electronics", 10⟩, ⟨2, "B", "Clothing", 5⟩]).Pairwise
      (fun a b => b.total_revenue ≤ a.total_revenue)) :=
  ⟨by decide, revenue_by_category_correct _ _ (by decide)⟩

/-- C3 (code bug): on a committed database whose largest order item id
is 1, creating an order with two line items commits and persists BOTH
new order items with the same `order_item_id` 2: the generator's
aggregation runs outside the transaction session, so it never sees the
items inserted earlier in the same transaction, and no fresh id per
item is minted. -/
theorem create_order_duplicate_order_item_ids :
    (create_order dbOneItem (fun _ => false) 5 [(1, 1, 10), (2, 1, 20)]).ok =
      true ∧
    ((create_order dbOneItem (fun _ => false) 5
      [(1, 1, 10), (2, 1, 20)]).db.order_items.map (·.order_item_id)) =
      [some 1, some 2, some 2] := by
  constructor
  · rfl
  · rfl


theorem digChar_isDigit (k : Nat) : (digChar k).isDigit = true := by
  unfold digChar
  split <;> decide

theorem digVal_digChar (k : Nat) (h : k ≤ 9) : digVal (digChar k) = k := by
  interval_cases k <;> decide

theorem pad2_digits (n : Nat) : ∀ c ∈ pad2 n, c.isDigit = true := by
  intro c hc
  simp only [pad2, List.mem_cons, List.not_mem_nil, or_false] at hc
  rcases hc with rfl | rfl <;> exact digChar_isDigit _

theorem pad4_digits (n : Nat) : ∀ c ∈ pad4 n, c.isDigit = true := by
  intro c hc
  simp only [pad4, List.mem_cons, List.not_mem_nil, or_false] at hc
  rcases hc with rfl | rfl | rfl | rfl <;> exact digChar_isDigit _

theorem takeDigits_append (ds : List Char) (h : ∀ c ∈ ds, c.isDigit = true)
    (c : Char) (hc : c.isDigit = false) (r : List Char) :
    takeDigits (ds ++ c :: r) = (ds, c :: r) := by
  induction ds with
  | nil => simp [takeDigits, hc]
  | cons d t ih =>
    have hd : d.isDigit = true := h d (List.mem_cons_self d t)
    have ht := ih fun x hx => h x (List.mem_cons_of_mem _ hx)
    simp [takeDigits, hd, ht]

theorem digitsToNat_pad2 (n : Nat) (h : n ≤ 99) : digitsToNat (pad2 n) = n := by
  have h1 : n / 10 % 10 ≤ 9 := by omega
  have h2 : n % 10 ≤ 9 := by omega
  simp [digitsToNat, pad2, digVal_digChar _ h1, digVal_digChar _ h2]
  omega

theorem digitsToNat_pad4 (n : Nat) (h : n ≤ 9999) : digitsToNat (pad4 n) = n := by
  have h1 : n / 1000 % 10 ≤ 9 := by omega
  have h2 : n / 100 % 10 ≤ 9 := by omega
  have h3 : n / 10 % 10 ≤ 9 := by omega
  have h4 : n % 10 ≤ 9 := by omega
  simp [digitsToNat, pad4, digVal_digChar _ h1, digVal_digChar _ h2,
    digVal_digChar _ h3, digVal_digChar _ h4]
  omega

theorem parse2_pad2_append (n : Nat) (h : n ≤ 99) (c : Char)
    (hc : c.isDigit = false) (r : List Char) :
    parse2 (pad2 n ++ c :: r) = some (n, c :: r) := by
  have hlen : (pad2 n).length = 2 := rfl
  unfold parse2
  rw [takeDigits_append (pad2 n) (pad2_digits n) c hc r]
  simp [hlen, digitsToNat_pad2 n h]

theorem expectChar_cons_self (c : Char) (l : List Char) :
    expectChar c (c :: l) = some l := by
  simp [expectChar]

theorem daysInMonth_le_31 (y m : Nat) : daysInMonth y m ≤ 31 := by
  unfold daysInMonth
  split
  · split <;> omega
  · split <;> omega

theorem strptime_strftimeZ (d : DateTime) (h : ValidDT d) :
    strptime (strftimeZ d) = some d := by
  obtain ⟨y, mo, da, hh, mi, ss⟩ := d
  obtain ⟨h1, h2, h3, h4, h5, h6, h7, h8, h9⟩ := h
  simp only at h1 h2 h3 h4 h5 h6 h7 h8 h9
  have hday99 : da ≤ 99 := le_trans h6 (le_trans (daysInMonth_le_31 _ _) (by omega))
  have hdata : (strftimeZ ⟨y, mo, da, hh, mi, ss⟩).data
      = pad4 y ++ '-' :: (pad2 mo ++ '-' :: (pad2 da ++ 'T' :: (pad2 hh
        ++ ':' :: (pad2 mi ++ ':' :: (pad2 ss ++ ['Z']))))) := by
    simp [strftimeZ, List.append_assoc]
  unfold strptime
  have hylen : (pad4 y).length = 4 := rfl
  have hyv : digitsToNat (pad4 y) = y := digitsToNat_pad4 y h2
  simp only [hdata, takeDigits_append (pad4 y) (pad4_digits _) '-' (by decide),
    hylen, hyv, expectChar_cons_self,
    parse2_pad2_append mo (by omega) '-' (by decide),
    parse2_pad2_append da hday99 'T' (by decide),
    parse2_pad2_append hh (by omega) ':' (by decide),
    parse2_pad2_append mi (by omega) ':' (by decide),
    parse2_pad2_append ss (by omega) 'Z' (by decide),
    h1, h3, h4, h5, h6, h7, h8, h9, and_self, and_true, true_and, if_true]



theorem find?_setKey_self (f : List (String × PyVal)) (k : String) (v : PyVal) :
    (setKey f k v).find? (fun kv => kv.1 == k) = some (k, v) := by
  induction f with
  | nil => simp [setKey, List.find?]
  | cons x rest ih =>
    obtain ⟨k0, v0⟩ := x
    cases h : (k0 == k) with
    | true => simp [setKey, h, List.find?]
    | false => simp [setKey, h, List.find?, ih]

theorem find?_setKey_ne (f : List (String × PyVal)) (k g : String) (v : PyVal)
    (hne : ¬(g = k)) :
    (setKey f k v).find? (fun kv => kv.1 == g) =
      f.find? (fun kv => kv.1 == g) := by
  induction f with
  | nil =>
    have hkg : (k == g) = false := by
      rw [beq_eq_false_iff_ne]
      exact fun hv => hne hv.symm
    simp [setKey, List.find?, hkg]
  | cons x rest ih =>
    obtain ⟨k0, v0⟩ := x
    cases h : (k0 == k) with
    | true =>
      have hk0 : k0 = k := by simpa using h
      subst hk0
      have hkg : (k0 == g) = false := by
        rw [beq_eq_false_iff_ne]
        exact fun hv => hne hv.symm
      simp [setKey, List.find?, hkg]
    | false =>
      simp [setKey, h, List.find?, ih]

theorem convert_date_field_conv (doc doc' : PyVal) (fld : String)
    (h : convert_date_field doc fld = .ok doc') (s : String)
    (hs : pyLookup doc fld = some (.vstr s)) :
    ∃ d, strptime s = some d ∧ pyLookup doc' fld = some (.vdatetime d) := by
  cases doc with
  | vdict f =>
    simp only [pyLookup] at hs
    obtain ⟨kv, hfind, hkv⟩ := Option.map_eq_some'.mp hs
    have hp := List.find?_some hfind
    have hany : (f.any fun x => x.1 == fld) = true :=
      List.any_eq_true.mpr ⟨kv, List.mem_of_find?_eq_some hfind, hp⟩
    have e1 : pyContains (.vdict f) fld = .ok true := by
      simp [pyContains, hany]
    have e2 : pyGetItem (.vdict f) fld = .ok (.vstr s) := by
      simp [pyGetItem, hfind, hkv]
    unfold convert_date_field at h
    simp only [e1, e2, if_true] at h
    cases hst : strptime s with
    | none => simp [hst] at h
    | some d =>
      simp only [hst, pySetItem] at h
      cases h
      refine ⟨d, rfl, ?_⟩
      simp [pyLookup, find?_setKey_self]
  | vnull => simp [pyLookup] at hs
  | vbool b => simp [pyLookup] at hs
  | vint n => simp [pyLookup] at hs
  | vstr s0 => simp [pyLookup] at hs
  | vlist xs => simp [pyLookup] at hs
  | vobjid o => simp [pyLookup] at hs
  | vdatetime dd => simp [pyLookup] at hs

theorem convert_date_field_pres (doc doc' : PyVal) (fld : String)
    (h : convert_date_field doc fld = .ok doc') (g : String)
    (hg : ¬(g = fld)) :
    pyLookup doc' g = pyLookup doc g := by
  unfold convert_date_field at h
  split at h
  · cases h
  · split at h
    · split at h
      · cases h
      · split at h
        · split at h
          · unfold pySetItem at h
            split at h
            · cases h
              simp [pyLookup, find?_setKey_ne _ _ _ _ hg]
            · cases h
          · cases h
        · cases h
    · cases h
      rfl

theorem convert_date_doc_rel (doc doc' : PyVal)
    (h : convert_date_doc doc = .ok doc') : dateConvRel doc doc' := by
  unfold convert_date_doc at h
  split at h
  · cases h
  · rename_i d1 heq1
    intro field hfield s hs
    simp only [List.mem_cons, List.not_mem_nil, or_false] at hfield
    rcases hfield with rfl | rfl
    · obtain ⟨d, hst, h1⟩ := convert_date_field_conv doc d1 "order_date" heq1 s hs
      have h2 := convert_date_field_pres d1 doc' "delivery_date" h "order_date"
        (by decide)
      exact ⟨d, hst, h2.trans h1⟩
    · have h0 := convert_date_field_pres doc d1 "order_date" heq1 "delivery_date"
        (by decide)
      obtain ⟨d, hst, h1⟩ := convert_date_field_conv d1 doc' "delivery_date" h s
        (h0.trans hs)
      exact ⟨d, hst, h1⟩

/-- C6: after a successful `convert_date`, every document that held
`order_date` or `delivery_date` as a string holds in that field the
datetime `strptime` parses from the string with format
`%Y-%m-%dT%H:%M:%SZ`; and that datetime denotes the same instant as the
source string, in the sense that rendering any in-range datetime back
through the same format and reparsing it is the identity. -/
theorem convert_date_spec :
    (∀ docs docs', convert_date docs = .ok docs' →
      List.Forall₂ dateConvRel docs docs') ∧
    (∀ d, ValidDT d → strptime (strftimeZ d) = some d) := by
  constructor
  · intro docs
    induction docs with
    | nil =>
      intro docs' h
      rw [convert_date] at h
      cases h
      constructor
    | cons x ds ih =>
      intro docs' h
      rw [convert_date] at h
      split at h
      · cases h
      · split at h
        · cases h
        · rename_i a1 d' hd a2 ds' hds
          cases h
          exact List.Forall₂.cons (convert_date_doc_rel _ _ hd) (ih _ hds)
  · exact strptime_strftimeZ

/-- Witness for C6 at a concrete document and a concrete datetime. -/
theorem convert_date_spec_witness :
    List.Forall₂ dateConvRel
      [.vdict [("order_date", .vstr "2024-12-20T10:00:00Z")]]
      [.vdict [("order_date", .vdatetime ⟨2024, 12, 20, 10, 0, 0⟩)]] ∧
    strptime (strftimeZ ⟨2024, 2, 29, 23, 59, 59⟩) =
      some ⟨2024, 2, 29, 23, 59, 59⟩ :=
  ⟨convert_date_spec.1 _ _ rfl, convert_date_spec.2 _ (by decide)⟩


/-- C7 counterexample: a document whose `_id` is the number 5 is not
wrapped in the object-id representation, yet `load_json` does not leave
it unchanged: the membership test `"$oid" in 5` raises TypeError, so no
document list is returned at all. -/
theorem load_json_counterexample :
    load_json [.vdict [("_id", .vint 5)]] =
      .error "TypeError: argument of type is not iterable" ∧
    ∀ out : List PyVal, load_json [.vdict [("_id", .vint 5)]] ≠ .ok out := by
  constructor
  · rfl
  · intro out h
    exact Except.noConfusion
      (show (Except.error "TypeError: argument of type is not iterable" :
        Except String (List PyVal)) = .ok out from h)

/-- Loading one well-shaped document: wrapped ids are replaced in
place, unwrapped object ids leave the document untouched. -/
theorem load_json_doc_good (doc : PyVal) (hg : goodIdDoc doc = true) :
    ∃ doc', load_json_doc doc = .ok doc' ∧ loadRel doc doc' := by
  unfold goodIdDoc at hg
  split at hg
  · rename_i x idf hlook
    cases doc with
    | vdict fields =>
      simp only [pyLookup] at hlook
      obtain ⟨kv, hfind, hkv⟩ := Option.map_eq_some'.mp hlook
      have e1 : pyGetItem (.vdict fields) "_id" = .ok (.vdict idf) := by
        simp [pyGetItem, hfind, hkv]
      cases hany : (idf.any fun x => x.1 == "$oid") with
      | false =>
        have hfn : idf.find? (fun x => x.1 == "$oid") = none := by
          rw [List.find?_eq_none]
          intro x hx
          exact List.any_eq_false.mp hany x hx
        refine ⟨.vdict fields, ?_, ?_, ?_⟩
        · simp [load_json_doc, e1, pyContains, hany]
        · intro fields' idf' h24 hfe hl1 hl2
          cases hfe
          simp only [pyLookup] at hl1
          obtain ⟨kva, hfa, hka⟩ := Option.map_eq_some'.mp hl1
          rw [hfind] at hfa
          cases hfa
          injection hkv.symm.trans hka with hii
          subst hii
          simp only [pyLookup] at hl2
          obtain ⟨kv2, hf2, hk2⟩ := Option.map_eq_some'.mp hl2
          rw [hfn] at hf2
          cases hf2
        · intro idf0 hl0 hf0
          rfl
      | true =>
        obtain ⟨kv2, hmem2, hkey2b⟩ := List.any_eq_true.mp hany
        cases hfo : idf.find? (fun x => x.1 == "$oid") with
        | none => exact absurd hkey2b (List.find?_eq_none.mp hfo kv2 hmem2)
        | some kv2' =>
        have hfind2 := hfo
        have hp2 := List.find?_some hfind2
        have hmem2' := List.mem_of_find?_eq_some hfind2
        have hvalid := List.all_eq_true.mp hg kv2' hmem2'
        have hkey2 : kv2'.1 = "$oid" := by simpa using hp2
        rw [hkey2] at hvalid
        simp only [BEq.refl, Bool.not_true, Bool.false_or] at hvalid
        cases h2v : kv2'.2 with
        | vstr h24 =>
          rw [h2v] at hvalid
          have hvalid2 : (h24.length == 24 && h24.data.all isHexChar) = true :=
            hvalid
          have e2 : pyGetItem (.vdict idf) "$oid" = .ok (.vstr h24) := by
            simp [pyGetItem, hfind2, h2v]
          have e3 : mkObjectId (.vstr h24) = .ok (.vobjid (some h24)) := by
            simp only [mkObjectId, hvalid2, if_true]
          refine ⟨.vdict (setKey fields "_id" (.vobjid (some h24))), ?_, ?_, ?_⟩
          · simp [load_json_doc, e1, pyContains, hany, e2, e3, pySetItem]
          · intro fields' idf' h24' hfe hl1 hl2
            cases hfe
            simp only [pyLookup] at hl1
            obtain ⟨kva, hfa, hka⟩ := Option.map_eq_some'.mp hl1
            rw [hfind] at hfa
            cases hfa
            injection hkv.symm.trans hka with hii
            subst hii
            simp only [pyLookup] at hl2
            obtain ⟨kvb, hfb, hkb⟩ := Option.map_eq_some'.mp hl2
            rw [hfind2] at hfb
            cases hfb
            injection h2v.symm.trans hkb with hjj
            subst hjj
            rfl
          · intro idf0 hl0 hf0
            simp only [pyLookup] at hl0
            obtain ⟨kva, hfa, hka⟩ := Option.map_eq_some'.mp hl0
            rw [hfind] at hfa
            cases hfa
            injection hkv.symm.trans hka with hii
            subst hii
            rw [hfind2] at hf0
            cases hf0
        | vnull => rw [h2v] at hvalid; simp at hvalid
        | vbool b => rw [h2v] at hvalid; simp at hvalid
        | vint n => rw [h2v] at hvalid; simp at hvalid
        | vlist xs => rw [h2v] at hvalid; simp at hvalid
        | vdict f2 => rw [h2v] at hvalid; simp at hvalid
        | vobjid o => rw [h2v] at hvalid; simp at hvalid
        | vdatetime dd => rw [h2v] at hvalid; simp at hvalid
    | vnull => simp [pyLookup] at hlook
    | vbool b => simp [pyLookup] at hlook
    | vint n => simp [pyLookup] at hlook
    | vstr s0 => simp [pyLookup] at hlook
    | vlist xs => simp [pyLookup] at hlook
    | vobjid o => simp [pyLookup] at hlook
    | vdatetime dd => simp [pyLookup] at hlook
  · cases hg

/-- C7 amended: restricted to fixture documents whose `_id` field is a
JSON object whose `$oid` binding, if present, is a valid 24-character
hex string, `load_json` succeeds; every `_id` object carrying a `$oid`
key is replaced by the native ObjectId of that hex string (the rest of
the document unchanged), and every document whose `_id` object has no
`$oid` key is left unchanged.  (Unrestricted, the claim is false: a
numeric, null or boolean `_id` makes the membership test raise
TypeError, and a string `_id` containing `$oid` as a substring makes
the subsequent indexing raise.) -/
theorem load_json_amended (docs : List PyVal)
    (hg : docs.all goodIdDoc = true) :
    ∃ docs', load_json docs = .ok docs' ∧ List.Forall₂ loadRel docs docs' := by
  induction docs with
  | nil => exact ⟨[], rfl, List.Forall₂.nil⟩
  | cons d ds ih =>
    simp only [List.all_cons, Bool.and_eq_true] at hg
    obtain ⟨hd, hds⟩ := hg
    obtain ⟨d', hd', hrel⟩ := load_json_doc_good d hd
    obtain ⟨ds', hds', hrels⟩ := ih hds
    refine ⟨d' :: ds', ?_, List.Forall₂.cons hrel hrels⟩
    simp [load_json, hd', hds']

/-- Witness for C7 at a concrete fixture: one wrapped document, one
document with a plain object id. -/
theorem load_json_amended_witness :
    ([PyVal.vdict [("_id", PyVal.vdict [("$oid",
        PyVal.vstr "507f1f77bcf86cd799439011")]), ("x", PyVal.vint 1)],
      PyVal.vdict [("_id", PyVal.vdict [("k", PyVal.vint 2)])]].all
        goodIdDoc = true) ∧
    ∃ docs', load_json
      [PyVal.vdict [("_id", PyVal.vdict [("$oid",
        PyVal.vstr "507f1f77bcf86cd799439011")]), ("x", PyVal.vint 1)],
       PyVal.vdict [("_id", PyVal.vdict [("k", PyVal.vint 2)])]] =
        .ok docs' ∧
      List.Forall₂ loadRel
        [PyVal.vdict [("_id", PyVal.vdict [("$oid",
          PyVal.vstr "507f1f77bcf86cd799439011")]), ("x", PyVal.vint 1)],
         PyVal.vdict [("_id", PyVal.vdict [("k", PyVal.vint 2)])]] docs' :=
  ⟨by decide, load_json_amended _ (by decide)⟩

end EC
